import Mathlib

/-
Verification development for the External Knowledge Acquisition & Plan
Orchestration Engine (webapi/CopilotChat/Skills/ChatSkills/ExternalInformationSkill.cs).

The C# source is shallowly embedded below:
- JSON documents (System.Text.Json JsonDocument / JsonElement) are modelled by
  the inductive type `Json` together with a compact renderer and a fuel-based
  parser covering the JSON fragment the skill manipulates (objects, arrays,
  strings without escape sequences, integer numbers, booleans, null).
- Token counting (TokenUtilities.TokenCount, not part of the sources under
  verification) is an abstract non-negative cost function `tc : String → Nat`
  passed as a parameter; all theorems quantify over it or instantiate it.
- Exceptions become explicit `Except` values; the CreatePlan retry loop becomes
  a fuel-indexed function whose `none` result means the loop is still running
  after the given number of iterations.
-/

set_option autoImplicit false

namespace ChatCopilot

/-- Left and right curly brace characters (used instead of literal braces). -/
def lbrace : Char := Char.ofNat 123

/-- Right curly brace character. -/
def rbrace : Char := Char.ofNat 125

/-- String containing a single left curly brace. -/
def lbraceS : String := String.mk [lbrace]

/-- String containing a single right curly brace. -/
def rbraceS : String := String.mk [rbrace]

/-- JSON values, modelling System.Text.Json documents as the skill uses them.
Numbers are restricted to integers, which covers every JSON value this
component's claims exercise; strings carry no escape sequences. -/
inductive Json where
  | null
  | bool (b : Bool)
  | num (n : Int)
  | str (s : String)
  | arr (elems : List Json)
  | obj (props : List (String × Json))

mutual

/-- Compact rendering of a JSON value, matching System.Text.Json's
JsonSerializer.Serialize / JsonElement.GetRawText on documents parsed from
whitespace-free text. -/
def Json.render : Json → String
  | .null => "null"
  | .bool true => "true"
  | .bool false => "false"
  | .num n => toString n
  | .str s => "\"" ++ s ++ "\""
  | .arr es => "[" ++ renderElems es ++ "]"
  | .obj ps => lbraceS ++ renderProps ps ++ rbraceS

/-- Comma-joined rendering of array elements. -/
def renderElems : List Json → String
  | [] => ""
  | [v] => Json.render v
  | v :: vs => Json.render v ++ "," ++ renderElems vs

/-- Comma-joined rendering of object properties. -/
def renderProps : List (String × Json) → String
  | [] => ""
  | [(k, v)] => "\"" ++ k ++ "\":" ++ Json.render v
  | (k, v) :: ps => "\"" ++ k ++ "\":" ++ Json.render v ++ "," ++ renderProps ps

end

/-- JsonElement.ToString(): Null renders as the empty string, booleans as
bool.TrueString / bool.FalseString, strings as their unquoted value, and
numbers, arrays and objects as their raw JSON text. Feeds the token counter
in the greedy accumulation loops. -/
def Json.elementToString : Json → String
  | .null => ""
  | .bool true => "True"
  | .bool false => "False"
  | .str s => s
  | v => v.render

/-- JsonProperty.ToString(): the raw text of a property, name included
(GetPropertyRawText). Rendered compactly; the original document's inter-token
whitespace is not reproduced, which only influences the abstract token
counter. -/
def propertyRawText (name : String) (value : Json) : String :=
  "\"" ++ name ++ "\":" ++ value.render

/-- Whitespace skipping for the JSON parser. -/
def skipWs : List Char → List Char
  | [] => []
  | c :: cs => if c = ' ' ∨ c = '\t' ∨ c = '\n' ∨ c = '\r' then skipWs cs else c :: cs

/-- Reads the body of a JSON string (opening quote already consumed) up to the
closing quote. Escape sequences are not supported (none of the inputs under
verification contain them); a backslash makes the parse fail. -/
def parseStringChars : List Char → Option (List Char × List Char)
  | [] => none
  | c :: cs =>
    if c = '"' then some ([], cs)
    else if c = '\\' then none
    else
      match parseStringChars cs with
      | some (s, rest) => some (c :: s, rest)
      | none => none

/-- Splits a leading run of decimal digits from the input. -/
def takeDigits : List Char → (List Char × List Char)
  | [] => ([], [])
  | c :: cs =>
    if c.isDigit then
      let p := takeDigits cs
      (c :: p.1, p.2)
    else ([], c :: cs)

/-- Numeric value of a digit string. -/
def digitsToNat (ds : List Char) : Nat :=
  ds.foldl (fun acc c => acc * 10 + (c.toNat - 48)) 0

/-- Parses an optionally-signed integer literal. -/
def parseNumber : List Char → Option (Int × List Char)
  | '-' :: rest =>
    let p := takeDigits rest
    if p.1 = [] then none else some (-(digitsToNat p.1 : Int), p.2)
  | cs =>
    let p := takeDigits cs
    if p.1 = [] then none else some ((digitsToNat p.1 : Int), p.2)

/-- Consumes an expected literal character sequence. -/
def dropExpected : List Char → List Char → Option (List Char)
  | [], cs => some cs
  | _ :: _, [] => none
  | e :: es, c :: cs => if c = e then dropExpected es cs else none

mutual

/-- Fuel-based recursive-descent JSON value parser. -/
def parseValue : Nat → List Char → Option (Json × List Char)
  | 0, _ => none
  | Nat.succ fuel, cs =>
    match skipWs cs with
    | [] => none
    | c :: rest =>
      if c = '"' then
        match parseStringChars rest with
        | some (s, r) => some (Json.str (String.mk s), r)
        | none => none
      else if c = lbrace then
        match skipWs rest with
        | d :: rest2 =>
          if d = rbrace then some (Json.obj [], rest2)
          else
            match parseObjItems fuel (d :: rest2) with
            | some (ps, r) => some (Json.obj ps, r)
            | none => none
        | [] => none
      else if c = '[' then
        match skipWs rest with
        | d :: rest2 =>
          if d = ']' then some (Json.arr [], rest2)
          else
            match parseArrItems fuel (d :: rest2) with
            | some (es, r) => some (Json.arr es, r)
            | none => none
        | [] => none
      else if c = 't' then
        match dropExpected ['r', 'u', 'e'] rest with
        | some r => some (Json.bool true, r)
        | none => none
      else if c = 'f' then
        match dropExpected ['a', 'l', 's', 'e'] rest with
        | some r => some (Json.bool false, r)
        | none => none
      else if c = 'n' then
        match dropExpected ['u', 'l', 'l'] rest with
        | some r => some (Json.null, r)
        | none => none
      else if c = '-' ∨ c.isDigit then
        match parseNumber (c :: rest) with
        | some (n, r) => some (Json.num n, r)
        | none => none
      else none

/-- Parses the non-empty element list of a JSON array (opening bracket and
leading whitespace already consumed). -/
def parseArrItems : Nat → List Char → Option (List Json × List Char)
  | 0, _ => none
  | Nat.succ fuel, cs =>
    match parseValue fuel cs with
    | none => none
    | some (v, r) =>
      match skipWs r with
      | ',' :: r2 =>
        match parseArrItems fuel r2 with
        | some (es, r3) => some (v :: es, r3)
        | none => none
      | ']' :: r2 => some ([v], r2)
      | _ => none

/-- Parses the non-empty property list of a JSON object (opening brace and
leading whitespace already consumed). -/
def parseObjItems : Nat → List Char → Option (List (String × Json) × List Char)
  | 0, _ => none
  | Nat.succ fuel, cs =>
    match skipWs cs with
    | '"' :: rest =>
      match parseStringChars rest with
      | none => none
      | some (k, r) =>
        match skipWs r with
        | ':' :: r2 =>
          match parseValue fuel r2 with
          | none => none
          | some (v, r3) =>
            match skipWs r3 with
            | ',' :: r4 =>
              match parseObjItems fuel r4 with
              | some (ps, r5) => some ((String.mk k, v) :: ps, r5)
              | none => none
            | d :: r4 => if d = rbrace then some ([(String.mk k, v)], r4) else none
            | [] => none
        | _ => none
    | _ => none

end

/-- Models JsonDocument.Parse: `some` is a successful parse of the whole input,
`none` a JsonException. Fuel is proportional to the input length, which bounds
the parser's recursion depth. -/
def parseJson (s : String) : Option Json :=
  match parseValue (2 * s.length + 2) s.data with
  | some (v, rest) => if skipWs rest = [] then some v else none
  | none => none

/-- Models string.IsNullOrWhiteSpace for a present (non-null) string: true on
the empty string and on strings of whitespace only. -/
def isNullOrWhiteSpace (s : String) : Bool :=
  s.data.all (fun c => c.isWhitespace)

/-- Models string.Trim on the character list: drop leading and trailing
whitespace. -/
def trimChars (cs : List Char) : List Char :=
  ((cs.dropWhile Char.isWhitespace).reverse.dropWhile Char.isWhitespace).reverse

/-- Models `Regex.Replace(jsonContent.Trim(), @"[\n\r]", string.Empty)`: trim
surrounding whitespace first, then delete every line-break character. -/
def stripJsonContent (s : String) : String :=
  String.mk ((trimChars s.data).filter (fun c => !(c = '\n' ∨ c = '\r')))

/-- PlanType (Models/ProposedPlan.cs): Action plans keep parameters at the
plan's top level, Sequential plans at each step. -/
inductive PlanType where
  | action
  | sequential
deriving DecidableEq

/-- PlanState: NoOp is a freshly proposed plan awaiting a decision, Approved a
user-confirmed one; any other state is treated as not approved. -/
inductive PlanState where
  | noOp
  | approved
  | rejected
deriving DecidableEq

/-- One step of a Semantic Kernel plan: the skill (capability) name, the
function name within it, and its named parameters (ContextVariables, modelled
as an association list). -/
structure PlanStep where
  skillName : String
  name : String
  parameters : List (String × String)
deriving DecidableEq

/-- A Semantic Kernel plan: ordered steps plus a top-level parameter map. -/
structure Plan where
  steps : List PlanStep
  parameters : List (String × String)
deriving DecidableEq

/-- PlannerOptions.MissingFunctionError: retry configuration for
missing-function planner errors. MaxRetriesAllowed is a C# int. -/
structure MissingFunctionErrorOptions where
  allowRetries : Bool
  maxRetriesAllowed : Int
deriving DecidableEq

/-- PlannerOptions (Options/PlannerOptions.cs, referenced from the skill):
planner type and the two retry switches. -/
structure PlannerOptions where
  type : PlanType
  allowRetriesOnInvalidPlan : Bool
  missingFunctionError : MissingFunctionErrorOptions
deriving DecidableEq

/-- ProposedPlan (Models/ProposedPlan.cs): a plan wrapped with its planner
type and approval state. -/
structure ProposedPlan where
  plan : Plan
  type : PlanType
  state : PlanState
deriving DecidableEq

/-- FunctionsView as used at the top of AcquireExternalInformationAsync: the
registry's native and semantic function collections, only queried for
emptiness; entries are modelled by their names. -/
structure FunctionsView where
  nativeFunctions : List String
  semanticFunctions : List String

/-- PlanningException.ErrorCodes as far as the skill distinguishes them. -/
inductive PlannerErrorCode where
  | invalidPlan
  | otherPlanningCode
deriving DecidableEq

/-- KernelException.ErrorCodes as far as the skill distinguishes them. -/
inductive KernelErrorCode where
  | functionNotAvailable
  | otherKernelCode
deriving DecidableEq

/-- The only facts IsRetriableError reads from Exception.InnerException:
whether it is null, and when it is a PlanningException, its error code. -/
inductive InnerException where
  | planningInner (code : PlannerErrorCode)
  | otherInner
deriving DecidableEq

/-- Exceptions reaching the CreatePlan catch clause. PlanningException and
KernelException are unrelated classes in Semantic Kernel (both extend
Exception of their own error-code enum), so an `is` test for one never
matches the other. -/
inductive Exn where
  | planningEx (code : PlannerErrorCode) (inner : Option InnerException)
  | kernelEx (code : KernelErrorCode) (inner : Option InnerException)
  | otherEx
deriving DecidableEq

/-- The `e is PlanningException` test. -/
def Exn.isPlanningException : Exn → Bool
  | .planningEx _ _ => true
  | _ => false

/-- The `e.InnerException as PlanningException` cast: the inner exception's
planning error code when the inner exception exists and is a
PlanningException, null otherwise. -/
def innerPlanningCode : Option InnerException → Option PlannerErrorCode
  | some (.planningInner c) => some c
  | _ => none

/-- A NullReferenceException raised by a null-forgiving dereference. -/
inductive RtError where
  | nullReference
deriving DecidableEq

/-- IsRetriableError (ExternalInformationSkill.cs lines 190-202), with the
nullable `this._planner.PlannerOptions` as an explicit Option. The two local
booleans are computed in source order with C# short-circuit evaluation; each
`!.` dereference of a null value is a NullReferenceException, modelled as
`Except.error`. -/
def isRetriableError (plannerOptions? : Option PlannerOptions) (e : Exn) :
    Except RtError Bool := do
  let retryOnInvalidPlanError ←
    match e with
    | .planningEx code inner =>
      if code = PlannerErrorCode.invalidPlan then
        match plannerOptions? with
        | none => Except.error RtError.nullReference
        | some o => pure o.allowRetriesOnInvalidPlan
      else
        match innerPlanningCode inner with
        | some icode =>
          if icode = PlannerErrorCode.invalidPlan then
            match plannerOptions? with
            | none => Except.error RtError.nullReference
            | some o => pure o.allowRetriesOnInvalidPlan
          else pure false
        | none => Except.error RtError.nullReference
    | _ => pure false
  let retryOnMissingFunctionError ←
    match e with
    | .kernelEx kcode _ =>
      if kcode = KernelErrorCode.functionNotAvailable then
        match plannerOptions? with
        | none => Except.error RtError.nullReference
        | some o => pure o.missingFunctionError.allowRetries
      else pure false
    | _ => pure false
  pure (retryOnMissingFunctionError || retryOnInvalidPlanError)

/-- Initial retry budget (lines 134-136): MaxRetriesAllowed when
missing-function retries are enabled, else 1 when invalid-plan retries are
enabled, else 0. -/
def initialRetries (opts : PlannerOptions) : Int :=
  if opts.missingFunctionError.allowRetries then opts.missingFunctionError.maxRetriesAllowed
  else if opts.allowRetriesOnInvalidPlan then 1 else 0

/-- Line 149: `retriesAvail = e is PlanningException ? 0 : retriesAvail--;`.
The C# post-decrement expression evaluates to the pre-decrement value, which
the enclosing assignment then stores back, so in the non-PlanningException
branch the net effect is that retriesAvail is unchanged. -/
def retriesAfterFailure (e : Exn) (retriesAvail : Int) : Int :=
  if e.isPlanningException then 0 else retriesAvail

/-- Result of the CreatePlan do-while loop: the plan or the propagated
exception, together with the number of CreatePlanAsync calls made. -/
inductive PlanLoopResult where
  | success (p : Plan) (calls : Nat)
  | failure (e : Exn) (calls : Nat)
deriving DecidableEq

/-- The do-while plan-creation loop (lines 138-157). `attempts i` is the
outcome of the i-th CreatePlanAsync call. The loop runs for at most `fuel`
iterations; `none` means the loop is still running after that many
iterations. A retriable failure with positive budget updates the budget via
`retriesAfterFailure` and continues; otherwise the exception propagates. An
exception thrown inside the `when` filter itself (a NullReferenceException
from IsRetriableError) makes the CLR treat the filter as false, so the
original exception propagates. -/
def createPlanLoop (plannerOptions? : Option PlannerOptions)
    (attempts : Nat → Except Exn Plan) :
    Nat → Int → Nat → Option PlanLoopResult
  | 0, _, _ => none
  | Nat.succ fuel, retriesAvail, idx =>
    match attempts idx with
    | .ok p => some (.success p (idx + 1))
    | .error e =>
      let retriable :=
        match isRetriableError plannerOptions? e with
        | .ok b => b
        | .error _ => false
      if retriable then
        if retriesAvail > 0 then
          createPlanLoop plannerOptions? attempts fuel (retriesAfterFailure e retriesAvail) (idx + 1)
        else some (.failure e (idx + 1))
      else some (.failure e (idx + 1))

/-- Exact lookup in a context-variable association list (TryGetValue). -/
def lookupVar (vars : List (String × String)) (k : String) : Option String :=
  match vars.find? (fun p => p.1 = k) with
  | some p => some p.2
  | none => none

/-- OrdinalIgnoreCase string comparison, implemented over the character
lists (ASCII case folding, which covers the reserved INPUT name). -/
def eqIgnoreCase (a b : String) : Bool :=
  a.data.map Char.toLower == b.data.map Char.toLower

/-- The body of MergeContextIntoPlan's foreach for one plan parameter: the
reserved INPUT name (compared case-insensitively) is skipped; otherwise a
same-named context variable overwrites the parameter's value. -/
def mergeParam (vars : List (String × String)) (p : String × String) : String × String :=
  if eqIgnoreCase p.1 "INPUT" then p
  else
    match lookupVar vars p.1 with
    | some v => (p.1, v)
    | none => p

/-- MergeContextIntoPlan (lines 207-221). Setting an existing key of the plan
parameter dictionary while iterating overwrites values in place and never
adds or removes keys, so the loop is a pointwise map over the entries. -/
def mergeContextIntoPlan (vars planParams : List (String × String)) :
    List (String × String) :=
  planParams.map (mergeParam vars)

/-- The merge application site (lines 163-174): Action plans merge context
into the plan's top-level parameters, Sequential plans into every step's
parameters. -/
def mergedPlanForProposal (opts : PlannerOptions) (vars : List (String × String))
    (p : Plan) : Plan :=
  if opts.type = PlanType.action then
    { p with parameters := mergeContextIntoPlan vars p.parameters }
  else
    { p with steps := p.steps.map (fun st => { st with parameters := mergeContextIntoPlan vars st.parameters }) }

/-- A JsonException from JsonSerializer.Deserialize: the input is not valid
JSON, or is valid JSON that does not bind to the target type. -/
inductive JsonError where
  | malformed
  | typeMismatch
deriving DecidableEq

/-- Models `JsonSerializer.Deserialize<ProposedPlan>(s)`. Malformed input
throws a JsonException; the JSON literal null deserializes to a null
reference. The binding of a parsed JSON value to the ProposedPlan type is the
abstract parameter `decode` (the ProposedPlan member shape lives outside the
sources under verification); a value it rejects also throws. -/
def deserializeProposedPlan (decode : Json → Option ProposedPlan) (s : String) :
    Except JsonError (Option ProposedPlan) :=
  match parseJson s with
  | none => .error .malformed
  | some .null => .ok none
  | some v =>
    match decode v with
    | some pp => .ok (some pp)
    | none => .error .typeMismatch

/-- Lines 89-90: read the proposedPlan context variable; an absent or
null-or-whitespace slot yields a null plan without attempting
deserialization; any other content goes through
`JsonSerializer.Deserialize<ProposedPlan>` unguarded. -/
def tryDeserializeProposedPlan (decode : Json → Option ProposedPlan)
    (vars : List (String × String)) : Except JsonError (Option ProposedPlan) :=
  match lookupVar vars "proposedPlan" with
  | none => .ok none
  | some s =>
    if isNullOrWhiteSpace s then .ok none
    else deserializeProposedPlan decode s

/-- The propose branch (lines 127-180): run the plan-creation loop, and when
the plan has at least one step, merge context variables into it and store it
as a NoOp ProposedPlan in the output slot; always return the empty string.
The result carries (returned string, output slot, CreatePlanAsync calls);
`none` means the loop was still running after `fuel` iterations. -/
def proposeBranch (opts : PlannerOptions) (plannerOptions? : Option PlannerOptions)
    (attempts : Nat → Except Exn Plan) (vars : List (String × String)) (fuel : Nat) :
    Option (Except Exn (String × Option ProposedPlan × Nat)) :=
  match createPlanLoop plannerOptions? attempts fuel (initialRetries opts) 0 with
  | none => none
  | some (.failure e _) => some (.error e)
  | some (.success p n) =>
    if p.steps.length > 0 then
      some (.ok ("", some ⟨mergedPlanForProposal opts vars p, opts.type, PlanState.noOp⟩, n))
    else
      some (.ok ("", none, n))

/-- Errors escaping AcquireExternalInformationAsync: a JsonException from the
proposed-plan deserialization, or a propagated planner exception. -/
inductive AcquireError where
  | jsonError (e : JsonError)
  | plannerError (e : Exn)
deriving DecidableEq

/-- Lifts a propose-branch outcome into the AcquireError error type. -/
def liftPlannerResult (r : Option (Except Exn (String × Option ProposedPlan × Nat))) :
    Option (Except AcquireError (String × Option ProposedPlan × Nat)) :=
  match r with
  | none => none
  | some (.error e) => some (.error (.plannerError e))
  | some (.ok v) => some (.ok v)

/-- AcquireExternalInformationAsync (lines 77-181), observed through
(returned string, ProposedPlan output slot, number of CreatePlanAsync calls).
The approved-plan execute branch (plan invocation plus result optimization,
lines 93-126) is the abstract parameter `execBranch`; it never touches the
planner or the output slot. `plannerOptions?` is the planner's nullable
options and `defaultOpts` stands for `new PlannerOptions()`, combined as in
line 133. -/
def acquireExternalInformation (funcs : FunctionsView)
    (decode : Json → Option ProposedPlan) (vars : List (String × String))
    (plannerOptions? : Option PlannerOptions) (defaultOpts : PlannerOptions)
    (attempts : Nat → Except Exn Plan) (execBranch : ProposedPlan → String)
    (fuel : Nat) :
    Option (Except AcquireError (String × Option ProposedPlan × Nat)) :=
  if funcs.nativeFunctions.isEmpty && funcs.semanticFunctions.isEmpty then
    some (.ok ("", none, 0))
  else
    match tryDeserializeProposedPlan decode vars with
    | .error je => some (.error (.jsonError je))
    | .ok deserializedPlan =>
      match deserializedPlan with
      | some pp =>
        if pp.state = PlanState.approved then
          some (.ok (execBranch pp, none, 0))
        else
          liftPlannerResult (proposeBranch (plannerOptions?.getD defaultOpts) plannerOptions? attempts vars fuel)
      | none =>
        liftPlannerResult (proposeBranch (plannerOptions?.getD defaultOpts) plannerOptions? attempts vars fuel)

/-- Items collected by OptimizeOpenApiSkillJson's accumulation loops: the
object loop stores JsonProperty values, the array loop JsonElement values. -/
inductive OptItem where
  | prop (name : String) (value : Json)
  | elem (v : Json)

/-- JsonSerializer.Serialize of one itemList entry: a JsonElement serializes
to its raw JSON; a JsonProperty has no built-in converter, so reflection
serializes its public Name and Value getters. Only the JsonElement case is
relied on by any theorem below. -/
def serializeOptItem : OptItem → String
  | .elem v => v.render
  | .prop n v => lbraceS ++ "\"Name\":\"" ++ n ++ "\",\"Value\":" ++ v.render ++ rbraceS

/-- JsonSerializer.Serialize of the itemList. -/
def serializeItemList (items : List OptItem) : String :=
  "[" ++ String.intercalate "," (items.map serializeOptItem) ++ "]"

/-- The greedy bounded accumulation loop shared by lines 317-333 (object
properties) and 337-353 (array elements): walk the items in order, keep an
item exactly when the remaining limit minus its cost is strictly positive
(subtracting the cost from the limit), and break at the first item that does
not fit. -/
def greedyAccumulate {α : Type} (cost : α → Nat) (limit : Int) : List α → List α
  | [] => []
  | x :: xs =>
    if 0 < limit - (cost x : Int) then x :: greedyAccumulate cost (limit - (cost x : Int)) xs
    else []

/-- Lines 294-313: when the root is an object with exactly one property,
subtract the property name's token cost from the limit, remember the
`name: ` descriptor, and continue with the property's value (reparsing its
raw text yields the same JSON value). Any other root is left untouched. -/
def unwrapSingleProperty (tc : String → Nat) (limit : Int) :
    Json → Json × Int × String
  | .obj [(name, value)] => (value, limit - (tc name : Int), name ++ ": ")
  | doc => (doc, limit, "")

/-- Lines 315-353: run the greedy accumulation over the working document's
properties (object root) or elements (array root); any other shape collects
nothing. Property costs come from JsonProperty.ToString(), element costs from
JsonElement.ToString(). -/
def accumulateItems (tc : String → Nat) (limit : Int) : Json → List OptItem
  | .obj props =>
    (greedyAccumulate (fun p => tc (propertyRawText p.1 p.2)) limit props).map
      (fun p => OptItem.prop p.1 p.2)
  | .arr elems =>
    (greedyAccumulate (fun v => tc v.elementToString) limit elems).map OptItem.elem
  | _ => []

/-- OptimizeOpenApiSkillJson from the parsed document on (lines 280-358):
return the JSON text as-is when its token count is under the limit; otherwise
unwrap a single-property root, greedily accumulate, and either emit the
descriptor-prefixed serialized item list or, when nothing was collected, the
fixed too-large message naming "plan" for a Sequential planner and the last
invoked skill otherwise. -/
def optimizeParsed (tc : String → Nat) (jsonContent : String) (document : Json)
    (tokenLimit : Int) (lastSkillInvoked : String) (plannerType? : Option PlanType) :
    String :=
  if (tc jsonContent : Int) < tokenLimit then jsonContent
  else
    let u := unwrapSingleProperty tc tokenLimit document
    let itemList := accumulateItems tc u.2.1 u.1
    if 0 < itemList.length then u.2.2 ++ serializeItemList itemList
    else
      "JSON response from " ++
        (if plannerType? = some PlanType.sequential then "plan" else lastSkillInvoked) ++
        " is too large to be consumed at this time."

/-- OptimizeOpenApiSkillJson (lines 259-358). Line breaks and surrounding
whitespace are removed, the text is parsed (`none` is a propagated
JsonException), and for the two capabilities with registered response shapes
(GitHubPlugin, JiraPlugin) the content is first re-encoded through the typed
projection `proj` — modelled from the spec: the host's response-shape models
(PullRequest, IssueResponse) are outside the sources under verification, so
the lossy projection is an abstract parameter; a null deserialization result
gives the empty string. `lastSkillInvoked` and `lastSkillFunctionInvoked`
are the final plan step's skill and function names, and `plannerType?` is the
planner's nullable options' Type. -/
def optimizeOpenApiSkillJson (tc : String → Nat) (proj : String → Option String)
    (jsonContent : String) (tokenLimit : Int)
    (lastSkillInvoked lastSkillFunctionInvoked : String)
    (plannerType? : Option PlanType) : Option String :=
  let jc := stripJsonContent jsonContent
  match parseJson jc with
  | none => none
  | some doc =>
    if lastSkillInvoked = "GitHubPlugin" ∨ lastSkillInvoked = "JiraPlugin" then
      let jc2 := (proj jc).getD ""
      match parseJson jc2 with
      | none => none
      | some doc2 => some (optimizeParsed tc jc2 doc2 tokenLimit lastSkillInvoked plannerType?)
    else
      some (optimizeParsed tc jc doc tokenLimit lastSkillInvoked plannerType?)

/-- An exception has the retriable shape described in IsRetriableError's doc
comment: a PlanningException carrying the InvalidPlan code (itself or through
a PlanningException inner exception), or a KernelException carrying
FunctionNotAvailable. -/
def retriableShaped : Exn → Bool
  | .planningEx .invalidPlan _ => true
  | .planningEx _ (some (.planningInner .invalidPlan)) => true
  | .kernelEx .functionNotAvailable _ => true
  | _ => false

/- ------------------------------------------------------------------
Helper lemmas shared by the claim theorems.
------------------------------------------------------------------ -/

theorem isRetriableError_invalidPlan (o : PlannerOptions) (inner : Option InnerException) :
    isRetriableError (some o) (.planningEx .invalidPlan inner) =
      .ok o.allowRetriesOnInvalidPlan := rfl

theorem isRetriableError_missingFunction (o : PlannerOptions) (inner : Option InnerException) :
    isRetriableError (some o) (.kernelEx .functionNotAvailable inner) =
      .ok (o.missingFunctionError.allowRetries || false) := rfl

theorem mergeParam_fst (vars : List (String × String)) (p : String × String) :
    (mergeParam vars p).1 = p.1 := by
  by_cases h : eqIgnoreCase p.1 "INPUT" = true
  · simp [mergeParam, h]
  · cases hl : lookupVar vars p.1 <;> simp [mergeParam, h, hl]

theorem greedyAccumulate_nonpos {α : Type} (cost : α → Nat) (limit : Int)
    (hl : limit ≤ 0) (items : List α) :
    greedyAccumulate cost limit items = [] := by
  cases items with
  | nil => rfl
  | cons x xs =>
    have : ¬ (0 < limit - (cost x : Int)) := by omega
    simp [greedyAccumulate, this]

theorem accumulateItems_nonpos (tc : String → Nat) (limit : Int) (doc : Json)
    (hl : limit ≤ 0) : accumulateItems tc limit doc = [] := by
  cases doc <;> simp [accumulateItems, greedyAccumulate_nonpos _ _ hl]

theorem greedyAccumulate_three {α : Type} (cost : α → Nat) (limit : Int) (a b c : α)
    (h1 : 0 < limit - (cost a : Int))
    (h2 : 0 < limit - (cost a : Int) - (cost b : Int))
    (h3 : 0 < limit - (cost a : Int) - (cost b : Int) - (cost c : Int)) :
    greedyAccumulate cost limit [a, b, c] = [a, b, c] := by
  simp only [greedyAccumulate]
  rw [if_pos h1, if_pos h2, if_pos h3]

theorem parseJson_results_input :
    parseJson (stripJsonContent "\x7b\"results\": [1,2,3]\x7d") =
      some (Json.obj [("results", Json.arr [Json.num 1, Json.num 2, Json.num 3])]) := rfl

/- ------------------------------------------------------------------
Claim theorems.
------------------------------------------------------------------ -/

/-- C1 (code bug evidence): with MissingFunctionError = (AllowRetries: true,
MaxRetriesAllowed: 2) and a planner that raises a missing-function-classified
KernelException on every attempt, the plan-creation loop never terminates, no
matter how much fuel it is given — line 149's `retriesAvail--` assignment
leaves the budget unchanged, so the budget is never consumed and the third
error does not propagate as the claim states. -/
theorem c1_missing_function_retries_never_consume_budget :
    (∀ (t : PlanType) (inv : Bool) (fuel idx : Nat),
      createPlanLoop (some ⟨t, inv, ⟨true, 2⟩⟩)
        (fun _ => .error (Exn.kernelEx KernelErrorCode.functionNotAvailable none))
        fuel (initialRetries ⟨t, inv, ⟨true, 2⟩⟩) idx = none) ∧
    (∀ r : Int,
      retriesAfterFailure (Exn.kernelEx KernelErrorCode.functionNotAvailable none) r = r) := by
  constructor
  · intro t inv fuel
    induction fuel with
    | zero => intro idx; rfl
    | succ f ih => intro idx; exact ih (idx + 1)
  · intro r; rfl

/-- C3: with AllowRetriesOnInvalidPlan = true and a positive initial retry
budget, two consecutive invalid-plan-classified PlanningExceptions make the
loop consume exactly one retry (two CreatePlan calls in total) and propagate
the second error: the first invalid-plan failure zeroes the entire budget
regardless of any remaining missing-function allowance. -/
theorem c3_invalid_plan_second_error_propagates
    (opts : PlannerOptions) (i0 i1 : Option InnerException)
    (attempts : Nat → Except Exn Plan) (fuel : Nat)
    (hinv : opts.allowRetriesOnInvalidPlan = true)
    (hbudget : 0 < initialRetries opts)
    (hfuel : 2 ≤ fuel)
    (h0 : attempts 0 = .error (Exn.planningEx PlannerErrorCode.invalidPlan i0))
    (h1 : attempts 1 = .error (Exn.planningEx PlannerErrorCode.invalidPlan i1)) :
    createPlanLoop (some opts) attempts fuel (initialRetries opts) 0 =
      some (.failure (Exn.planningEx PlannerErrorCode.invalidPlan i1) 2) := by
  obtain ⟨f, rfl⟩ : ∃ f, fuel = f + 1 + 1 := ⟨fuel - 2, by omega⟩
  have hgt : initialRetries opts > 0 := hbudget
  simp only [createPlanLoop, h0, isRetriableError_invalidPlan, hinv]
  simp [retriesAfterFailure, Exn.isPlanningException, if_pos hgt, h1,
    isRetriableError_invalidPlan, hinv]

/-- C4: IsRetriableError dereferences null and throws instead of returning
false: (i) a PlanningException whose own code is not InvalidPlan and whose
InnerException is null or not a PlanningException triggers the
NullReferenceException of `(e.InnerException as PlanningException)!`,
whatever the planner options are; (ii) every retriable-shaped error triggers
the NullReferenceException of `this._planner.PlannerOptions!` when the
planner's options are null. -/
theorem c4_is_retriable_error_null_dereference :
    (∀ (code : PlannerErrorCode) (inner : Option InnerException)
        (opts? : Option PlannerOptions),
      code ≠ PlannerErrorCode.invalidPlan →
      innerPlanningCode inner = none →
      isRetriableError opts? (.planningEx code inner) = .error RtError.nullReference) ∧
    (∀ e : Exn, retriableShaped e = true →
      isRetriableError none e = .error RtError.nullReference) := by
  constructor
  · intro code inner opts? hcode hinner
    cases code with
    | invalidPlan => exact absurd rfl hcode
    | otherPlanningCode =>
      simp only [isRetriableError, innerPlanningCode] at *
      cases inner with
      | none => rfl
      | some i =>
        cases i with
        | planningInner c => simp [innerPlanningCode] at hinner
        | otherInner => rfl
  · intro e he
    match e, he with
    | .planningEx .invalidPlan _, _ => rfl
    | .planningEx .otherPlanningCode (some (.planningInner .invalidPlan)), _ => rfl
    | .kernelEx .functionNotAvailable _, _ => rfl

/-- C10: when the capability registry exposes no native and no semantic
functions, AcquireExternalInformation returns the empty string immediately:
no CreatePlan call is made, the execute branch is never taken, and the
proposed-plan output slot is not written, for every deserializer, context,
options, planner behavior and fuel. -/
theorem c10_empty_registry_returns_empty
    (funcs : FunctionsView) (decode : Json → Option ProposedPlan)
    (vars : List (String × String)) (opts? : Option PlannerOptions)
    (defaultOpts : PlannerOptions) (attempts : Nat → Except Exn Plan)
    (execBranch : ProposedPlan → String) (fuel : Nat)
    (hn : funcs.nativeFunctions = []) (hs : funcs.semanticFunctions = []) :
    acquireExternalInformation funcs decode vars opts? defaultOpts attempts execBranch fuel =
      some (.ok ("", none, 0)) := by
  simp [acquireExternalInformation, hn, hs]

/-- Witness for C3 at a concrete configuration: two consecutive invalid-plan
errors with budget 2 end after exactly two CreatePlan calls with the second
error propagated. -/
theorem c3_witness :
    createPlanLoop (some ⟨PlanType.action, true, ⟨true, 2⟩⟩)
      (fun _ => .error (Exn.planningEx PlannerErrorCode.invalidPlan none))
      2 (initialRetries ⟨PlanType.action, true, ⟨true, 2⟩⟩) 0 =
      some (.failure (Exn.planningEx PlannerErrorCode.invalidPlan none) 2) :=
  c3_invalid_plan_second_error_propagates
    ⟨PlanType.action, true, ⟨true, 2⟩⟩ none none
    (fun _ => .error (Exn.planningEx PlannerErrorCode.invalidPlan none)) 2
    rfl (by decide) (by decide) rfl rfl

/-- Witness for C4 at concrete errors: a PlanningException with a non-InvalidPlan
code and a null inner exception throws, and a missing-function KernelException
throws when the planner options are null. -/
theorem c4_witness :
    isRetriableError (some ⟨PlanType.action, true, ⟨true, 2⟩⟩)
      (.planningEx PlannerErrorCode.otherPlanningCode none) = .error RtError.nullReference ∧
    isRetriableError none (.kernelEx KernelErrorCode.functionNotAvailable none) =
      .error RtError.nullReference :=
  ⟨c4_is_retriable_error_null_dereference.1 PlannerErrorCode.otherPlanningCode none
      (some ⟨PlanType.action, true, ⟨true, 2⟩⟩) (by decide) rfl,
   c4_is_retriable_error_null_dereference.2
      (.kernelEx KernelErrorCode.functionNotAvailable none) rfl⟩

/-- C6: the greedy accumulation considers items in original order — the
result is always a prefix of the input; an item is kept and its cost
subtracted exactly when the remaining limit minus its cost is strictly
positive; the first item that does not fit ends the iteration with no later
item considered; and concretely, for elements costing 3, 2 and 1 tokens under
a limit of 4, only the first element appears in the optimizer's output. -/
theorem c6_greedy_accumulation_order_and_stop :
    (∀ (α : Type) (cost : α → Nat) (limit : Int) (items : List α),
      ∃ n, greedyAccumulate cost limit items = items.take n) ∧
    (∀ (α : Type) (cost : α → Nat) (limit : Int) (x : α) (xs : List α),
      ¬ (0 < limit - (cost x : Int)) → greedyAccumulate cost limit (x :: xs) = []) ∧
    (∀ (α : Type) (cost : α → Nat) (limit : Int) (x : α) (xs : List α),
      0 < limit - (cost x : Int) →
      greedyAccumulate cost limit (x :: xs) =
        x :: greedyAccumulate cost (limit - (cost x : Int)) xs) ∧
    (optimizeOpenApiSkillJson String.length (fun _ => none) "[\"aaa\",\"bb\",\"c\"]" 4
      "TestSkill" "TestFn" (some PlanType.action) = some "[\"aaa\"]") := by
  refine ⟨?_, ?_, ?_, rfl⟩
  · intro α cost limit items
    induction items generalizing limit with
    | nil => exact ⟨0, rfl⟩
    | cons x xs ih =>
      by_cases h : 0 < limit - (cost x : Int)
      · obtain ⟨n, hn⟩ := ih (limit - (cost x : Int))
        exact ⟨n + 1, by simp [greedyAccumulate, h, hn]⟩
      · exact ⟨0, by simp [greedyAccumulate, h]⟩
  · intro α cost limit x xs h
    simp [greedyAccumulate, h]
  · intro α cost limit x xs h
    simp [greedyAccumulate, h]

/-- C7: the parameter merge overwrites each plan-declared parameter (except
the reserved INPUT name, compared case-insensitively) with the same-named
context variable's value when one exists, leaves parameters without a
matching context variable untouched, never adds a parameter name absent from
the plan, and is applied to the plan's top-level parameters for Action plans
and to every step's parameters for Sequential plans. -/
theorem c7_merge_context_into_plan (vars planParams : List (String × String)) :
    ((mergeContextIntoPlan vars planParams).map Prod.fst = planParams.map Prod.fst) ∧
    (∀ k v w, (k, v) ∈ planParams → eqIgnoreCase k "INPUT" = false →
      lookupVar vars k = some w → (k, w) ∈ mergeContextIntoPlan vars planParams) ∧
    (∀ k v, (k, v) ∈ planParams → eqIgnoreCase k "INPUT" = false →
      lookupVar vars k = none → (k, v) ∈ mergeContextIntoPlan vars planParams) ∧
    (∀ k v, (k, v) ∈ planParams → eqIgnoreCase k "INPUT" = true →
      (k, v) ∈ mergeContextIntoPlan vars planParams) ∧
    (∀ (opts : PlannerOptions) (p : Plan), opts.type = PlanType.action →
      mergedPlanForProposal opts vars p =
        { p with parameters := mergeContextIntoPlan vars p.parameters }) ∧
    (∀ (opts : PlannerOptions) (p : Plan), opts.type = PlanType.sequential →
      mergedPlanForProposal opts vars p =
        { p with steps := p.steps.map (fun st =>
            { st with parameters := mergeContextIntoPlan vars st.parameters }) }) := by
  have hmem : ∀ q ∈ planParams, mergeParam vars q ∈ mergeContextIntoPlan vars planParams :=
    fun q hq => List.mem_map_of_mem _ hq
  refine ⟨?_, ?_, ?_, ?_, ?_, ?_⟩
  · clear hmem
    induction planParams with
    | nil => rfl
    | cons p ps ih =>
      simp only [mergeContextIntoPlan] at ih ⊢
      simp [mergeParam_fst, ih]
  · intro k v w hkv hic hlk
    have h := hmem (k, v) hkv
    rwa [show mergeParam vars (k, v) = (k, w) from by simp [mergeParam, hic, hlk]] at h
  · intro k v hkv hic hlk
    have h := hmem (k, v) hkv
    rwa [show mergeParam vars (k, v) = (k, v) from by simp [mergeParam, hic, hlk]] at h
  · intro k v hkv hic
    have h := hmem (k, v) hkv
    rwa [show mergeParam vars (k, v) = (k, v) from by simp [mergeParam, hic]] at h
  · intro opts p h
    simp [mergedPlanForProposal, h]
  · intro opts p h
    simp [mergedPlanForProposal, h]

/-- C8: whenever the greedy accumulation collects no item — in particular
whenever the token limit is zero or negative — the optimizer still returns a
defined result: the fixed too-large fallback message, naming "plan" for a
Sequential planner type and the last invoked capability otherwise. -/
theorem c8_empty_accumulation_fallback :
    (∀ (tc : String → Nat) (jc : String) (doc : Json) (limit : Int)
        (sk : String) (pt? : Option PlanType),
      ¬ ((tc jc : Int) < limit) →
      accumulateItems tc (unwrapSingleProperty tc limit doc).2.1
        (unwrapSingleProperty tc limit doc).1 = [] →
      optimizeParsed tc jc doc limit sk pt? =
        "JSON response from " ++
          (if pt? = some PlanType.sequential then "plan" else sk) ++
          " is too large to be consumed at this time.") ∧
    (∀ (tc : String → Nat) (limit : Int) (doc : Json), limit ≤ 0 →
      accumulateItems tc (unwrapSingleProperty tc limit doc).2.1
        (unwrapSingleProperty tc limit doc).1 = []) ∧
    (∀ (tc : String → Nat) (jc : String) (doc : Json) (limit : Int)
        (sk : String) (pt? : Option PlanType),
      limit ≤ 0 →
      optimizeParsed tc jc doc limit sk pt? =
        "JSON response from " ++
          (if pt? = some PlanType.sequential then "plan" else sk) ++
          " is too large to be consumed at this time.") := by
  have hfall : ∀ (tc : String → Nat) (jc : String) (doc : Json) (limit : Int)
      (sk : String) (pt? : Option PlanType),
      ¬ ((tc jc : Int) < limit) →
      accumulateItems tc (unwrapSingleProperty tc limit doc).2.1
        (unwrapSingleProperty tc limit doc).1 = [] →
      optimizeParsed tc jc doc limit sk pt? =
        "JSON response from " ++
          (if pt? = some PlanType.sequential then "plan" else sk) ++
          " is too large to be consumed at this time." := by
    intro tc jc doc limit sk pt? h1 h2
    unfold optimizeParsed
    rw [if_neg h1]
    simp only [h2, List.length_nil, lt_self_iff_false, if_false]
  have hempty : ∀ (tc : String → Nat) (limit : Int) (doc : Json), limit ≤ 0 →
      accumulateItems tc (unwrapSingleProperty tc limit doc).2.1
        (unwrapSingleProperty tc limit doc).1 = [] := by
    intro tc limit doc h
    cases doc with
    | obj props =>
      rcases props with _ | ⟨⟨name, value⟩, rest⟩
      · exact accumulateItems_nonpos tc _ _ h
      · rcases rest with _ | ⟨q, rest2⟩
        · have h2 : limit - (tc name : Int) ≤ 0 := by omega
          exact accumulateItems_nonpos tc _ value h2
        · exact accumulateItems_nonpos tc _ _ h
    | null => exact accumulateItems_nonpos tc _ _ h
    | bool b => exact accumulateItems_nonpos tc _ _ h
    | num n => exact accumulateItems_nonpos tc _ _ h
    | str s => exact accumulateItems_nonpos tc _ _ h
    | arr es => exact accumulateItems_nonpos tc _ _ h
  refine ⟨hfall, hempty, ?_⟩
  intro tc jc doc limit sk pt? h
  have h1 : ¬ ((tc jc : Int) < limit) := by
    have : (0 : Int) ≤ (tc jc : Int) := Int.ofNat_nonneg _
    omega
  exact hfall tc jc doc limit sk pt? h1 (hempty tc limit doc h)

/-- C9: when the plan-creation loop succeeds with a zero-step plan, the
propose branch leaves the ProposedPlan output slot unwritten and returns the
empty string; conversely, every ProposedPlan the propose branch stores wraps
a plan with at least one step, and the returned string is always empty. -/
theorem c9_zero_step_plan_not_stored :
    (∀ (opts : PlannerOptions) (opts? : Option PlannerOptions)
        (attempts : Nat → Except Exn Plan) (vars : List (String × String))
        (fuel : Nat) (p : Plan) (n : Nat),
      createPlanLoop opts? attempts fuel (initialRetries opts) 0 =
        some (.success p n) →
      p.steps = [] →
      proposeBranch opts opts? attempts vars fuel = some (.ok ("", none, n))) ∧
    (∀ (opts : PlannerOptions) (opts? : Option PlannerOptions)
        (attempts : Nat → Except Exn Plan) (vars : List (String × String))
        (fuel : Nat) (out : String) (pp : ProposedPlan) (n : Nat),
      proposeBranch opts opts? attempts vars fuel = some (.ok (out, some pp, n)) →
      pp.plan.steps ≠ [] ∧ out = "") := by
  constructor
  · intro opts opts? attempts vars fuel p n hloop hsteps
    simp [proposeBranch, hloop, hsteps]
  · intro opts opts? attempts vars fuel out pp n h
    unfold proposeBranch at h
    cases hloop : createPlanLoop opts? attempts fuel (initialRetries opts) 0 with
    | none => rw [hloop] at h; simp at h
    | some r =>
      rw [hloop] at h
      cases r with
      | failure e m => simp at h
      | success p m =>
        dsimp only at h
        by_cases hlen : p.steps.length > 0
        · rw [if_pos hlen] at h
          simp only [Option.some.injEq, Except.ok.injEq, Prod.mk.injEq] at h
          obtain ⟨hout, hpp, hn⟩ := h
          refine ⟨?_, hout.symm⟩
          rw [← hpp]
          show (mergedPlanForProposal opts vars p).steps ≠ []
          unfold mergedPlanForProposal
          by_cases ht : opts.type = PlanType.action
          · rw [if_pos ht]
            exact List.length_pos.mp hlen
          · rw [if_neg ht]
            intro hcon
            have hc2 : p.steps = [] := by
              have := congrArg List.length hcon
              simp at this
              exact this
            rw [hc2] at hlen
            simp at hlen
        · rw [if_neg hlen] at h
          simp at h

/-- Witness for C6: with costs 3, 2, 1 and a limit of 4 the first element is
kept, and the second element's overflow ends the accumulation even though the
third element alone would fit. -/
theorem c6_witness :
    greedyAccumulate (fun n : Nat => n) 4 [3, 2, 1] = [3, 2, 1].take 1 ∧
    greedyAccumulate (fun n : Nat => n) 1 [2, 1] = [] := by
  constructor
  · rw [c6_greedy_accumulation_order_and_stop.2.2.1 Nat (fun n => n) 4 3 [2, 1] (by decide),
      c6_greedy_accumulation_order_and_stop.2.1 Nat (fun n => n) (4 - ((3 : Nat) : Int)) 2 [1]
        (by decide)]
    rfl
  · exact c6_greedy_accumulation_order_and_stop.2.1 Nat (fun n => n) 1 2 [1] (by decide)

/-- Witness for C7 at the spec's round-trip example: parameters p1 and p2
with context variable p1 = x give a merged p1 = x and an unchanged p2. -/
theorem c7_witness :
    ("p1", "x") ∈ mergeContextIntoPlan [("p1", "x")] [("p1", "a"), ("p2", "b")] ∧
    ("p2", "b") ∈ mergeContextIntoPlan [("p1", "x")] [("p1", "a"), ("p2", "b")] :=
  ⟨(c7_merge_context_into_plan [("p1", "x")] [("p1", "a"), ("p2", "b")]).2.1 "p1" "a" "x"
      (by decide) (by decide) (by decide),
   (c7_merge_context_into_plan [("p1", "x")] [("p1", "a"), ("p2", "b")]).2.2.1 "p2" "b"
      (by decide) (by decide) (by decide)⟩

/-- C2 (counterexample): a proposedPlan context slot holding a non-whitespace
string that fails to deserialize makes AcquireExternalInformation raise the
deserialization error instead of proceeding as if no plan were present. -/
theorem c2_malformed_plan_slot_throws :
    acquireExternalInformation ⟨["f"], []⟩ (fun _ => none)
      [("proposedPlan", "not json")] none ⟨PlanType.action, false, ⟨false, 0⟩⟩
      (fun _ => .error Exn.otherEx) (fun _ => "") 5 =
      some (.error (.jsonError .malformed)) := rfl

/-- C2 (amended): an absent, empty, or all-whitespace proposedPlan slot is
treated as "no plan" — the deserialization attempt raises no error and the
call takes the propose branch; a non-whitespace slot value that fails to
deserialize, by contrast, propagates the deserialization error (see the
counterexample). -/
theorem c2_blank_or_missing_plan_slot_proposes
    (funcs : FunctionsView) (decode : Json → Option ProposedPlan)
    (vars : List (String × String)) (opts? : Option PlannerOptions)
    (defaultOpts : PlannerOptions) (attempts : Nat → Except Exn Plan)
    (execBranch : ProposedPlan → String) (fuel : Nat)
    (hfuncs : (funcs.nativeFunctions.isEmpty && funcs.semanticFunctions.isEmpty) = false)
    (hslot : lookupVar vars "proposedPlan" = none ∨
      ∃ s, lookupVar vars "proposedPlan" = some s ∧ isNullOrWhiteSpace s = true) :
    tryDeserializeProposedPlan decode vars = .ok none ∧
    acquireExternalInformation funcs decode vars opts? defaultOpts attempts execBranch fuel =
      liftPlannerResult (proposeBranch (opts?.getD defaultOpts) opts? attempts vars fuel) := by
  have hdeser : tryDeserializeProposedPlan decode vars = .ok none := by
    rcases hslot with h | ⟨s, hs, hws⟩
    · simp [tryDeserializeProposedPlan, h]
    · simp [tryDeserializeProposedPlan, hs, hws]
  refine ⟨hdeser, ?_⟩
  simp [acquireExternalInformation, hfuncs, hdeser]

/-- C5 (counterexample): with a token limit amply larger than the input's
cost, the optimizer returns the input as-is — the single-property unwrap the
claim describes does not happen under budget. -/
theorem c5_ample_budget_counterexample :
    optimizeOpenApiSkillJson String.length (fun _ => none)
      "\x7b\"results\": [1,2,3]\x7d" 1000 "TestSkill" "TestFn" (some PlanType.action) =
      some "\x7b\"results\": [1,2,3]\x7d" ∧
    "\x7b\"results\": [1,2,3]\x7d" ≠ "results: [1,2,3]" :=
  ⟨rfl, by decide⟩

/-- C5 (amended): for the single-property input, a token limit strictly above
the input's token cost returns the stripped input unchanged; the unwrapped
`results: [1,2,3]` is produced exactly by the over-budget path, when the
three array elements fit the budget left after subtracting the property
name's token cost. -/
theorem c5_single_property_unwrap (tc : String → Nat) (proj : String → Option String)
    (limit : Int) (lastSkill lastFn : String) (ptype? : Option PlanType)
    (hg : lastSkill ≠ "GitHubPlugin") (hj : lastSkill ≠ "JiraPlugin") :
    ((tc "\x7b\"results\": [1,2,3]\x7d" : Int) < limit →
      optimizeOpenApiSkillJson tc proj "\x7b\"results\": [1,2,3]\x7d" limit lastSkill lastFn
        ptype? = some "\x7b\"results\": [1,2,3]\x7d") ∧
    (¬ ((tc "\x7b\"results\": [1,2,3]\x7d" : Int) < limit) →
      0 < limit - (tc "results" : Int) - (tc "1" : Int) →
      0 < limit - (tc "results" : Int) - (tc "1" : Int) - (tc "2" : Int) →
      0 < limit - (tc "results" : Int) - (tc "1" : Int) - (tc "2" : Int) - (tc "3" : Int) →
      optimizeOpenApiSkillJson tc proj "\x7b\"results\": [1,2,3]\x7d" limit lastSkill lastFn
        ptype? = some "results: [1,2,3]") := by
  have hskill : ¬ (lastSkill = "GitHubPlugin" ∨ lastSkill = "JiraPlugin") := by
    rintro (h | h)
    · exact hg h
    · exact hj h
  have key : optimizeOpenApiSkillJson tc proj "\x7b\"results\": [1,2,3]\x7d" limit lastSkill
      lastFn ptype? =
      some (optimizeParsed tc "\x7b\"results\": [1,2,3]\x7d"
        (Json.obj [("results", Json.arr [Json.num 1, Json.num 2, Json.num 3])])
        limit lastSkill ptype?) := by
    simp only [optimizeOpenApiSkillJson]
    rw [parseJson_results_input]
    dsimp only
    rw [if_neg hskill]
    rfl
  constructor
  · intro h
    rw [key]
    unfold optimizeParsed
    rw [if_pos h]
  · intro h h1 h2 h3
    rw [key]
    unfold optimizeParsed
    rw [if_neg h]
    have hacc : greedyAccumulate (fun v : Json => tc v.elementToString)
        (limit - (tc "results" : Int)) [Json.num 1, Json.num 2, Json.num 3] =
        [Json.num 1, Json.num 2, Json.num 3] :=
      greedyAccumulate_three (fun v : Json => tc v.elementToString)
        (limit - (tc "results" : Int)) (Json.num 1) (Json.num 2) (Json.num 3) h1 h2 h3
    dsimp only [unwrapSingleProperty, accumulateItems]
    rw [hacc]
    rfl

/-- Witness for C2 at a concrete all-whitespace slot value: no error, and the
call goes through the propose branch. -/
theorem c2_witness :
    tryDeserializeProposedPlan (fun _ => none) [("proposedPlan", "  ")] = .ok none ∧
    acquireExternalInformation ⟨["f"], []⟩ (fun _ => none) [("proposedPlan", "  ")] none
      ⟨PlanType.action, false, ⟨false, 0⟩⟩ (fun _ => .error Exn.otherEx) (fun _ => "") 1 =
      liftPlannerResult (proposeBranch
        ((none : Option PlannerOptions).getD ⟨PlanType.action, false, ⟨false, 0⟩⟩) none
        (fun _ => .error Exn.otherEx) [("proposedPlan", "  ")] 1) :=
  c2_blank_or_missing_plan_slot_proposes ⟨["f"], []⟩ (fun _ => none)
    [("proposedPlan", "  ")] none ⟨PlanType.action, false, ⟨false, 0⟩⟩
    (fun _ => .error Exn.otherEx) (fun _ => "") 1 rfl (Or.inr ⟨"  ", rfl, rfl⟩)

/-- Witness for C5 at a concrete over-budget limit: the optimizer produces
the unwrapped form. -/
theorem c5_witness :
    (¬ ((String.length "\x7b\"results\": [1,2,3]\x7d" : Int) < 15)) ∧
    optimizeOpenApiSkillJson String.length (fun _ => none) "\x7b\"results\": [1,2,3]\x7d" 15
      "TestSkill" "TestFn" (some PlanType.action) = some "results: [1,2,3]" :=
  ⟨by decide,
   (c5_single_property_unwrap String.length (fun _ => none) 15 "TestSkill" "TestFn"
      (some PlanType.action) (by decide) (by decide)).2
     (by decide) (by decide) (by decide) (by decide)⟩

/-- Witness for C8: an over-budget single-element array under a zero limit
collects nothing and yields the "plan" fallback message for a Sequential
planner type. -/
theorem c8_witness :
    optimizeParsed String.length "[\"aaaaa\"]" (Json.arr [Json.str "aaaaa"]) 0 "TestSkill"
      (some PlanType.sequential) =
      "JSON response from plan is too large to be consumed at this time." := by
  rw [c8_empty_accumulation_fallback.1 String.length "[\"aaaaa\"]"
    (Json.arr [Json.str "aaaaa"]) 0 "TestSkill" (some PlanType.sequential)
    (by decide) rfl]
  rfl

/-- Witness for C9: a planner that immediately returns a zero-step plan makes
the propose branch return the empty string with the output slot unwritten. -/
theorem c9_witness :
    proposeBranch ⟨PlanType.action, true, ⟨true, 2⟩⟩ (some ⟨PlanType.action, true, ⟨true, 2⟩⟩)
      (fun _ => .ok ⟨[], []⟩) [("p1", "x")] 1 = some (.ok ("", none, 1)) :=
  c9_zero_step_plan_not_stored.1 ⟨PlanType.action, true, ⟨true, 2⟩⟩
    (some ⟨PlanType.action, true, ⟨true, 2⟩⟩) (fun _ => .ok ⟨[], []⟩) [("p1", "x")] 1
    ⟨[], []⟩ 1 rfl rfl

/-- Witness for C10 at a concrete empty registry. -/
theorem c10_witness :
    acquireExternalInformation ⟨[], []⟩ (fun _ => none) [("tokenLimit", "100")] none
      ⟨PlanType.action, false, ⟨false, 0⟩⟩ (fun _ => .error Exn.otherEx) (fun _ => "x") 3 =
      some (.ok ("", none, 0)) :=
  c10_empty_registry_returns_empty ⟨[], []⟩ (fun _ => none) [("tokenLimit", "100")] none
    ⟨PlanType.action, false, ⟨false, 0⟩⟩ (fun _ => .error Exn.otherEx) (fun _ => "x") 3 rfl rfl

end ChatCopilot
